import Mathlib

/-!
Shallow embedding of the transport core of the Lookup/Ibis client library
(`src/ibisclient/connection.py`): parameter coercion, URL building with
percent-encoding, per-connection credential state, and classification of
server responses.  Python dicts iterate in insertion order, so parameter
maps are embedded as association lists.
-/

namespace Ibis

/-- The month abbreviation table `_MONTHS` (`connection.py:35-36`). -/
def MONTHS : List String :=
  ["Jan", "Feb", "Mar", "Apr", "May", "Jun",
   "Jul", "Aug", "Sep", "Oct", "Nov", "Dec"]

/-- Byte values that `urllib.parse.quote` never escapes: ASCII letters,
digits, and `_`, `.`, `-`, `~`. -/
def isSafeByte (b : Nat) : Bool :=
  (65 ≤ b && b ≤ 90) || (97 ≤ b && b ≤ 122) || (48 ≤ b && b ≤ 57) ||
  b == 95 || b == 46 || b == 45 || b == 126

/-- Uppercase hexadecimal digit, as produced by `urllib.parse.quote`. -/
def hexDigit : Nat → Char
  | 0 => '0'
  | 1 => '1'
  | 2 => '2'
  | 3 => '3'
  | 4 => '4'
  | 5 => '5'
  | 6 => '6'
  | 7 => '7'
  | 8 => '8'
  | 9 => '9'
  | 10 => 'A'
  | 11 => 'B'
  | 12 => 'C'
  | 13 => 'D'
  | 14 => 'E'
  | _ => 'F'

/-- How `urllib.parse.quote_plus` renders one byte of the UTF-8 encoding of
its argument: safe bytes stand for themselves, a space becomes `+`, and
every other byte becomes `%XX` with uppercase hexadecimal digits. -/
def encodeByte (b : Nat) : List Char :=
  if isSafeByte b then [Char.ofNat b]
  else if b = 32 then ['+']
  else ['%', hexDigit (b / 16), hexDigit (b % 16)]

/-- The UTF-8 encoding of one character, as a list of byte values. -/
def utf8Bytes (c : Char) : List Nat :=
  let n := c.toNat
  if n < 128 then [n]
  else if n < 2048 then [192 + n / 64, 128 + n % 64]
  else if n < 65536 then [224 + n / 4096, 128 + n / 64 % 64, 128 + n % 64]
  else [240 + n / 262144, 128 + n / 4096 % 64, 128 + n / 64 % 64, 128 + n % 64]

/-- Model of `urllib.parse.quote_plus(value)` with its default empty `safe`
set, as applied to every path parameter value at `connection.py:181` and to
every query key and value by `urllib.parse.urlencode`. -/
def quotePlus (s : String) : String :=
  String.mk (((s.data.map utf8Bytes).flatten.map encodeByte).flatten)

/-- A loosely-typed parameter value as handled by
`IbisClientConnection._params_to_strings` (`connection.py:134-160`): absent
(`None`), boolean, calendar date (Python `datetime.date` guarantees a day
in 1..31 and a month in 1..12), sequence of strings (list or tuple),
domain object (`IbisDto`, rendered by its `encoded_string()` method),
plain string, or any other scalar carrying its `str()` representation. -/
inductive PValue where
  | none
  | bool (b : Bool)
  | date (day month year : Nat)
  | strList (xs : List String)
  | dto (encoded : String)
  | str (s : String)
  | scalar (rep : String)
deriving Repr, DecidableEq

/-- Python `"%02d"` formatting of a nonnegative integer: decimal, zero-padded
to at least two digits. -/
def pad2 (n : Nat) : String :=
  if n < 10 then "0" ++ toString n else toString n

/-- Python `sep.join(xs)`. -/
def pyJoin (sep : String) : List String → String
  | [] => ""
  | [x] => x
  | x :: y :: t => x ++ sep ++ pyJoin sep (y :: t)

/-- Coercion of one parameter value in `_params_to_strings`
(`connection.py:141-158`): `None` is dropped by the caller, booleans render
as `"true"`/`"false"`, a date renders as `"%02d %s %d"` from its day, the
month abbreviation table and its year, sequences are comma-joined, an
`IbisDto` uses its encoded string, non-strings fall back to `str(value)`,
and strings pass through unchanged. -/
def coerceValue : PValue → Option String
  | .none => Option.none
  | .bool true => some "true"
  | .bool false => some "false"
  | .date d m y => some (pad2 d ++ " " ++ MONTHS.getD (m - 1) "" ++ " " ++ toString y)
  | .strList xs => some (pyJoin "," xs)
  | .dto e => some e
  | .str s => some s
  | .scalar r => some r

/-- Model of `IbisClientConnection._params_to_strings`
(`connection.py:134-160`): pointwise coercion of a parameter map into a map
of wire strings, omitting keys whose value is `None`. -/
def params_to_strings (params : List (String × PValue)) : List (String × String) :=
  params.filterMap fun kv => (coerceValue kv.2).map fun s => (kv.1, s)

mutual

/-- Model of Python `path % path_params` restricted to the named string
specifiers (`%(name)s`) this API uses, plus the escape `%%`.  Returns
`Option.none` where Python raises an exception: a missing key, an
unterminated placeholder, or an unsupported conversion. -/
def substTemplate (params : List (String × String)) : List Char → Option (List Char)
  | [] => some []
  | '%' :: '%' :: rest => (substTemplate params rest).map (fun t => '%' :: t)
  | '%' :: '(' :: rest => substPlaceholder params [] rest
  | '%' :: _ => Option.none
  | c :: rest => (substTemplate params rest).map (fun t => c :: t)

/-- Helper for `substTemplate`: accumulate a placeholder name up to the
closing parenthesis, require the `s` conversion, and substitute the looked
up value. -/
def substPlaceholder (params : List (String × String)) (name : List Char) :
    List Char → Option (List Char)
  | [] => Option.none
  | ')' :: 's' :: rest =>
      match params.lookup (String.mk name) with
      | some v => (substTemplate params rest).map (fun t => v.data ++ t)
      | Option.none => Option.none
  | ')' :: _ => Option.none
  | c :: rest => substPlaceholder params (name ++ [c]) rest

end

/-- Model of `urllib.parse.urlencode(query_params)`: each key and value is
encoded with `quote_plus` and the pairs are rendered as
`key=value&key=value`. -/
def urlencode (qp : List (String × String)) : String :=
  pyJoin "&" (qp.map fun kv => quotePlus kv.1 ++ "=" ++ quotePlus kv.2)

/-- Model of `IbisClientConnection._build_url` (`connection.py:162-190`).
The Python method mutates its arguments in place: every `path_params` value
is overwritten with its `quote_plus`-encoded form before substitution, and
a `"flatten" = "true"` entry is added to `query_params` when that key is
absent.  The returned triple carries the resulting relative URL
(`Option.none` where Python raises) together with both maps as the caller
observes them after the call. -/
def build_url (url_base : String) (path : String)
    (path_params query_params : List (String × String)) :
    Option String × List (String × String) × List (String × String) :=
  let pp := path_params.map fun kv => (kv.1, quotePlus kv.2)
  match substTemplate pp path.data with
  | Option.none => (Option.none, pp, query_params)
  | some cs =>
      let qp := if (query_params.lookup "flatten").isSome then query_params
                else query_params ++ [("flatten", "true")]
      let full := String.mk cs ++ "?" ++ urlencode qp
      let url := if full.data.head? = some '/' then url_base ++ String.mk full.data.tail
                 else url_base ++ full
      (some url, pp, qp)

/-- The `url_base` normalization performed by `IbisClientConnection.__init__`
(`connection.py:78-81`): ensure a leading and a trailing slash. -/
def normalize_url_base (ub : String) : String :=
  let ub1 := if ub.data.head? = some '/' then ub else "/" ++ ub
  if ub1.data.getLast? = some '/' then ub1 else ub1 ++ "/"

/-- The absolute URL constructed by `IbisClientConnection.invoke_method`
(`connection.py:225-232`): the parameter maps are coerced to strings, the
relative URL is built by `_build_url`, and the result is prefixed with
`https://host:port`. -/
def invoke_url (host : String) (port : Nat) (url_base : String) (path : String)
    (path_params query_params : List (String × PValue)) : Option String :=
  let pp := params_to_strings path_params
  let qp := params_to_strings query_params
  ((build_url url_base path pp qp).1).map
    fun rel => "https://" ++ host ++ ":" ++ toString port ++ rel

/-- The mutable state shared through `requests.Session` objects: each
session's `auth` attribute, indexed by allocation order.  A fresh session
has `auth = None`; `IbisClientConnection.__init__` with the default
`session=None` allocates a fresh session (`connection.py:76`). -/
structure World where
  sessions : List (Option (String × String))
deriving Repr, DecidableEq

/-- The per-instance state of an `IbisClientConnection`
(`connection.py:72-99`): endpoint settings, the index of its
`requests.Session`, and the `username`/`password` attributes (both
initialized to `None`). -/
structure Connection where
  host : String
  port : Nat
  url_base : String
  sid : Nat
  username : Option String
  password : Option String
deriving Repr, DecidableEq

/-- `IbisClientConnection._update_authorization` (`connection.py:95-99`):
store `(username if username is not None else "anonymous", password if
password is not None else "")` as the session's basic-authentication
pair. -/
def update_authorization (w : World) (c : Connection) : World :=
  ⟨w.sessions.set c.sid (some (c.username.getD "anonymous", c.password.getD ""))⟩

/-- `IbisClientConnection.set_username` (`connection.py:101-119`): assign the
`username` attribute, then refresh the session's authentication pair. -/
def set_username (w : World) (c : Connection) (u : Option String) :
    World × Connection :=
  let c2 := { c with username := u }
  (update_authorization w c2, c2)

/-- `IbisClientConnection.set_password` (`connection.py:121-132`): assign the
`password` attribute, then refresh the session's authentication pair. -/
def set_password (w : World) (c : Connection) (p : Option String) :
    World × Connection :=
  let c2 := { c with password := p }
  (update_authorization w c2, c2)

/-- `IbisClientConnection.__init__` (`connection.py:72-93`) with the default
`session=None`: allocate a fresh `requests.Session`, normalize `url_base`,
start with `username = password = None`, then call
`set_username("anonymous")`. -/
def init_connection (w : World) (host : String) (port : Nat) (ub : String) :
    World × Connection :=
  let c : Connection :=
    { host := host, port := port, url_base := normalize_url_base ub,
      sid := w.sessions.length, username := Option.none, password := Option.none }
  set_username ⟨w.sessions ++ [Option.none]⟩ c (some "anonymous")

/-- The basic-authentication pair an invocation through a connection
presents: its session's `auth` attribute at call time
(`connection.py:96`, read by `self.session.request` at 236/239). -/
def observed_auth (w : World) (c : Connection) : Option (String × String) :=
  match w.sessions[c.sid]? with
  | some a => a
  | Option.none => Option.none

/-- The parts of a `requests` response that `invoke_method` inspects
(`connection.py:241-256`). -/
structure HttpResponse where
  status_code : Nat
  reason : String
  content_type : String
  body : String
deriving Repr, DecidableEq

/-- Modelled from the spec: the structured `IbisError` record lives in the
`dto` module, which is absent from this repository snapshot; the spec
describes it as carrying `status` (numeric code), `code` (short
identifier), `message` (human-readable summary) and `details` (free-text
elaboration). -/
structure IbisError where
  status : Nat
  code : String
  message : String
  details : String
deriving Repr, DecidableEq

/-- Outcome of `invoke_method`'s response handling (`connection.py:241-256`):
a non-XML content type yields an `IbisResult` whose `error` field is set
(a returned failure, not a raised exception); an `application/xml`
response is handed to `IbisResultParser` (external to this core). -/
inductive InvokeOutcome where
  | failure (e : IbisError)
  | parsed_xml (body : String)
deriving Repr, DecidableEq

/-- The response classification performed at the end of
`IbisClientConnection.invoke_method` (`connection.py:241-256`): if the
declared content type is not exactly `application/xml`, build an
`IbisError` from the HTTP status code and reason phrase with the fixed
message and the raw body as details, and return it as a failure result;
otherwise parse the XML body. -/
def classify_response (r : HttpResponse) : InvokeOutcome :=
  if r.content_type ≠ "application/xml" then
    .failure { status := r.status_code, code := r.reason,
               message := "Unexpected result from server", details := r.body }
  else
    .parsed_xml r.body

/-- Lift a coerced (all-string) parameter map back into a parameter map, as
Python would when the result dict of `_params_to_strings` is itself passed
to `_params_to_strings` again. -/
def liftStrings (m : List (String × String)) : List (String × PValue) :=
  m.map fun kv => (kv.1, .str kv.2)

theorem params_to_strings_liftStrings (l : List (String × String)) :
    params_to_strings (liftStrings l) = l := by
  induction l with
  | nil => rfl
  | cons kv t ih => simp [params_to_strings, liftStrings, coerceValue] at ih ⊢; exact ih

/-- C1: for every response whose declared content type is not exactly
`application/xml`, `invoke_method` returns a failure result (not a raised
exception) whose error has `status` equal to the HTTP status code, `code`
equal to the HTTP reason phrase, `message` equal to the fixed string
`"Unexpected result from server"`, and `details` equal to the raw response
body. -/
theorem C1_non_xml_failure (r : HttpResponse)
    (h : r.content_type ≠ "application/xml") :
    ∃ e : IbisError, classify_response r = .failure e ∧
      e.status = r.status_code ∧ e.code = r.reason ∧
      e.message = "Unexpected result from server" ∧ e.details = r.body := by
  refine ⟨⟨r.status_code, r.reason, "Unexpected result from server", r.body⟩,
    ?_, rfl, rfl, rfl, rfl⟩
  simp [classify_response, h]

/-- Witness for C1 at the spec's example: a `text/html` response with
status 500 yields a failure with `status = 500` and `details` equal to the
raw body. -/
theorem C1_non_xml_failure_witness :
    ("text/html" : String) ≠ "application/xml" ∧
    ∃ e : IbisError,
      classify_response
        ⟨500, "Internal Server Error", "text/html", "<html>oops</html>"⟩ =
        .failure e ∧
      e.status = 500 ∧ e.code = "Internal Server Error" ∧
      e.message = "Unexpected result from server" ∧
      e.details = "<html>oops</html>" :=
  ⟨by decide,
   C1_non_xml_failure
     ⟨500, "Internal Server Error", "text/html", "<html>oops</html>"⟩
     (by decide)⟩

/-- C2: for a connection built with host `example.org`, port 443, and base
path `""`, invoking the template `api/v1/person/%(scheme)s/%(identifier)s`
with path params `{scheme: crsid, identifier: dar17}` and query params
`{fetch: email,title}` constructs exactly the absolute URL
`https://example.org:443/api/v1/person/crsid/dar17?fetch=email%2Ctitle&flatten=true`,
with both query keys present and correctly encoded. -/
theorem C2_end_to_end_url :
    invoke_url "example.org" 443 (normalize_url_base "")
      "api/v1/person/%(scheme)s/%(identifier)s"
      [("scheme", .str "crsid"), ("identifier", .str "dar17")]
      [("fetch", .str "email,title")] =
    some "https://example.org:443/api/v1/person/crsid/dar17?fetch=email%2Ctitle&flatten=true" := by
  rfl

/-- C7: for every valid calendar date, parameter coercion produces exactly
`DD Mon YYYY`: a zero-padded two-digit day that reads back as the day
number, a three-letter English month abbreviation drawn from the fixed
month table, and the year in decimal, with no locale dependence. -/
theorem C7_date_format (d m y : Nat) (hd1 : 1 ≤ d) (hd2 : d ≤ 31)
    (hm1 : 1 ≤ m) (hm2 : m ≤ 12) :
    ∃ ds ms : String,
      coerceValue (.date d m y) = some (ds ++ " " ++ ms ++ " " ++ toString y) ∧
      ds.length = 2 ∧ ds.data.all Char.isDigit = true ∧ ds = pad2 d ∧
      ms ∈ MONTHS ∧ ms.length = 3 ∧ ms = MONTHS.getD (m - 1) "" := by
  refine ⟨pad2 d, MONTHS.getD (m - 1) "", rfl, ?_, ?_, rfl, ?_, ?_, rfl⟩
  · interval_cases d <;> decide
  · interval_cases d <;> decide
  · interval_cases m <;> decide
  · interval_cases m <;> decide

/-- Witness for C7 at the spec's example date: 2 January 2024 coerces to
exactly `02 Jan 2024`. -/
theorem C7_date_format_witness :
    coerceValue (.date 2 1 2024) = some "02 Jan 2024" ∧
    ∃ ds ms : String,
      coerceValue (.date 2 1 2024) = some (ds ++ " " ++ ms ++ " " ++ toString 2024) ∧
      ds.length = 2 ∧ ds.data.all Char.isDigit = true ∧ ds = pad2 2 ∧
      ms ∈ MONTHS ∧ ms.length = 3 ∧ ms = MONTHS.getD (1 - 1) "" :=
  ⟨by decide,
   C7_date_format 2 1 2024 (by decide) (by decide) (by decide) (by decide)⟩

theorem hexDigit_ne_space_amp (n : Nat) : hexDigit n ≠ ' ' ∧ hexDigit n ≠ '&' := by
  unfold hexDigit
  split <;> decide

theorem isSafeByte_bounds {b : Nat} (h : isSafeByte b = true) : 45 ≤ b ∧ b ≤ 126 := by
  simp only [isSafeByte, Bool.or_eq_true, Bool.and_eq_true, decide_eq_true_eq,
    beq_iff_eq] at h
  omega

theorem encodeByte_good (b : Nat) :
    (encodeByte b).all (fun c => c ≠ ' ' && c ≠ '&') = true := by
  unfold encodeByte
  by_cases hs : isSafeByte b
  · obtain ⟨hb1, hb2⟩ := isSafeByte_bounds hs
    simp only [hs, if_true]
    interval_cases b <;> decide
  · simp only [hs, Bool.false_eq_true, if_false]
    by_cases h32 : b = 32
    · simp [h32]
    · have hx := hexDigit_ne_space_amp (b / 16)
      have hy := hexDigit_ne_space_amp (b % 16)
      simp [h32, hx.1, hx.2, hy.1, hy.2]

theorem quotePlus_ne_space_amp (s : String) :
    ' ' ∉ (quotePlus s).data ∧ '&' ∉ (quotePlus s).data := by
  have key : ∀ c ∈ (quotePlus s).data, c ≠ ' ' ∧ c ≠ '&' := by
    intro c hc
    have hc2 : c ∈ ((s.data.map utf8Bytes).flatten.map encodeByte).flatten := hc
    rw [List.mem_flatten] at hc2
    obtain ⟨l, hl, hcl⟩ := hc2
    rw [List.mem_map] at hl
    obtain ⟨b, _, rfl⟩ := hl
    have hall := encodeByte_good b
    rw [List.all_eq_true] at hall
    have h2 := hall c hcl
    simpa using h2
  exact ⟨fun h => (key _ h).1 rfl, fun h => (key _ h).2 rfl⟩

theorem build_url_path_params (ub path : String)
    (pp qp : List (String × String)) :
    (build_url ub path pp qp).2.1 = pp.map (fun kv => (kv.1, quotePlus kv.2)) := by
  cases h : substTemplate (pp.map fun kv => (kv.1, quotePlus kv.2)) path.data <;>
    simp [build_url, h]

/-- C6: every path parameter value is percent-encoded (form-encoding style,
with a space becoming `+`) before substitution into the template: the map
`_build_url` substitutes from is the pointwise `quote_plus` image of the
caller's map, and no encoded value ever contains a literal space or
ampersand. -/
theorem C6_path_values_encoded (ub path : String)
    (pp qp : List (String × String)) :
    (build_url ub path pp qp).2.1 = pp.map (fun kv => (kv.1, quotePlus kv.2)) ∧
    quotePlus " " = "+" ∧
    ∀ v : String, ' ' ∉ (quotePlus v).data ∧ '&' ∉ (quotePlus v).data := by
  exact ⟨build_url_path_params ub path pp qp, rfl, quotePlus_ne_space_amp⟩

theorem pyJoin_append_single (sep : String) (l : List String) (x : String) :
    pyJoin sep (l ++ [x]) = if l = [] then x else pyJoin sep l ++ sep ++ x := by
  induction l with
  | nil => rfl
  | cons a t ih =>
    cases t with
    | nil => rfl
    | cons b t' =>
      simp only [List.cons_append, pyJoin] at ih ⊢
      simp [ih, String.append_assoc]

theorem urlencode_flatten_suffix (qp : List (String × String)) :
    "flatten=true".data <:+ (urlencode (qp ++ [("flatten", "true")])).data := by
  unfold urlencode
  rw [List.map_append, List.map_cons, List.map_nil, pyJoin_append_single]
  have hx : quotePlus "flatten" ++ "=" ++ quotePlus "true" = "flatten=true" := rfl
  by_cases h : qp.map (fun kv => quotePlus kv.1 ++ "=" ++ quotePlus kv.2) = []
  · rw [if_pos h, hx]
  · rw [if_neg h, hx, String.data_append]
    exact List.suffix_append _ _

theorem data_mk_append_quest (cs : List Char) (enc : String) :
    (String.mk cs ++ "?" ++ enc).data = cs ++ '?' :: enc.data := by
  simp [String.data_append]

theorem url_suffix {t : List Char} (ub full : String)
    (h : t <:+ full.data) (hne : t.head? ≠ some '/') :
    t <:+ (if full.data.head? = some '/'
           then ub ++ String.mk full.data.tail
           else ub ++ full).data := by
  split
  case isTrue hh =>
    rw [String.data_append]
    refine List.IsSuffix.trans ?_ (List.suffix_append _ _)
    cases fl : full.data with
    | nil => rw [fl] at hh; simp at hh
    | cons c l =>
      rw [fl] at h hh
      simp only [List.head?_cons, Option.some.injEq] at hh
      rcases List.suffix_cons_iff.mp h with he | hs
      · rw [he] at hne; simp [hh] at hne
      · simpa using hs
  case isFalse =>
    rw [String.data_append]
    exact h.trans (List.suffix_append _ _)

/-- C3: the query string always receives `flatten=true` unless the caller
supplied a `flatten` key: when `flatten` is present, `query_params` is left
unchanged and the query string is built from it as is; when it is absent,
`flatten = "true"` is appended and every successfully built URL carries
`flatten=true` at its end. -/
theorem C3_flatten_default (ub path : String) (pp qp : List (String × String)) :
    ((qp.lookup "flatten").isSome = true →
        (build_url ub path pp qp).2.2 = qp ∧
        ∀ u, (build_url ub path pp qp).1 = some u →
          ('?' :: (urlencode qp).data) <:+ u.data) ∧
    ((qp.lookup "flatten").isSome = false →
        ∀ u, (build_url ub path pp qp).1 = some u →
          (build_url ub path pp qp).2.2 = qp ++ [("flatten", "true")] ∧
          "flatten=true".data <:+ u.data) := by
  cases hsub : substTemplate (pp.map fun kv => (kv.1, quotePlus kv.2)) path.data with
  | none =>
    refine ⟨fun hf => ⟨?_, ?_⟩, fun hf u hu => ?_⟩ <;>
      simp_all [build_url, hsub]
  | some cs =>
    by_cases hf : (qp.lookup "flatten").isSome
    · refine ⟨fun _ => ⟨?_, ?_⟩, fun hf2 => by rw [hf] at hf2; cases hf2⟩
      · simp [build_url, hsub, hf]
      · intro u hu
        simp only [build_url, hsub, hf, if_true] at hu
        injection hu with hu
        subst hu
        apply url_suffix
        · rw [data_mk_append_quest]
          exact List.suffix_append _ _
        · simp
    · refine ⟨fun hf2 => by rw [hf2] at hf; exact absurd rfl hf, fun _ u hu => ?_⟩
      constructor
      · simp [build_url, hsub, hf]
      · simp only [build_url, hsub, hf, if_false] at hu
        injection hu with hu
        subst hu
        apply url_suffix
        · rw [data_mk_append_quest]
          refine List.IsSuffix.trans (urlencode_flatten_suffix qp) ?_
          exact (List.IsSuffix.trans ⟨['?'], rfl⟩ (List.suffix_append _ _))
        · simp

/-- Python `str.split(sep)` for a one-character separator, over character
lists: splitting the empty string yields one empty field, and every
separator occurrence opens a new field. -/
def splitOnChar (sep : Char) : List Char → List (List Char)
  | [] => [[]]
  | c :: cs =>
      let r := splitOnChar sep cs
      if c = sep then [] :: r
      else
        match r with
        | [] => [[c]]
        | h :: t => (c :: h) :: t

/-- Python `s.split(sep)` for a one-character separator. -/
def pySplit (s : String) (sep : Char) : List String :=
  (splitOnChar sep s.data).map String.mk

theorem splitOnChar_ne_nil (sep : Char) (l : List Char) :
    splitOnChar sep l ≠ [] := by
  cases l with
  | nil => simp [splitOnChar]
  | cons c cs =>
    simp only [splitOnChar]
    split
    · simp
    · split <;> simp

theorem splitOnChar_no_sep (sep : Char) (x : List Char) (hx : sep ∉ x) :
    splitOnChar sep x = [x] := by
  induction x with
  | nil => rfl
  | cons c cs ih =>
    simp only [List.mem_cons, not_or] at hx
    have hcs : c ≠ sep := fun h => hx.1 h.symm
    simp only [splitOnChar, ih hx.2, if_neg hcs]

theorem splitOnChar_append_sep (sep : Char) (x rest : List Char) (hx : sep ∉ x) :
    splitOnChar sep (x ++ sep :: rest) = x :: splitOnChar sep rest := by
  induction x with
  | nil => simp [splitOnChar]
  | cons c cs ih =>
    simp only [List.mem_cons, not_or] at hx
    have hcs : c ≠ sep := fun h => hx.1 h.symm
    simp only [List.cons_append, splitOnChar, List.append_eq, ih hx.2, if_neg hcs]

/-- Python `sep.join` over character lists, with a one-character
separator. -/
def joinCharSep (sep : Char) : List (List Char) → List Char
  | [] => []
  | [x] => x
  | x :: y :: t => x ++ sep :: joinCharSep sep (y :: t)

theorem pyJoin_data (sep : Char) (l : List String) :
    (pyJoin (String.mk [sep]) l).data = joinCharSep sep (l.map String.data) := by
  induction l with
  | nil => rfl
  | cons a t ih =>
    cases t with
    | nil => rfl
    | cons b t' =>
      simp only [pyJoin, List.map_cons, joinCharSep, String.data_append] at ih ⊢
      simp [ih]

theorem splitOnChar_joinCharSep (sep : Char) (l : List (List Char))
    (hne : l ≠ []) (hmem : ∀ x ∈ l, sep ∉ x) :
    splitOnChar sep (joinCharSep sep l) = l := by
  induction l with
  | nil => exact absurd rfl hne
  | cons x t ih =>
    cases t with
    | nil => exact splitOnChar_no_sep sep x (hmem x (List.mem_cons_self x []))
    | cons y t' =>
      have hx : sep ∉ x := hmem x (List.mem_cons_self x _)
      have hrest : ∀ z ∈ y :: t', sep ∉ z := fun z hz => hmem z (List.mem_cons_of_mem x hz)
      simp only [joinCharSep, splitOnChar_append_sep sep x _ hx,
        ih (by simp) hrest]

theorem pyJoin_comma_data (l : List String) :
    (pyJoin "," l).data = joinCharSep ',' (l.map String.data) := by
  induction l with
  | nil => rfl
  | cons a t ih =>
    cases t with
    | nil => rfl
    | cons b t' =>
      simp only [pyJoin, List.map_cons, joinCharSep, String.data_append] at ih ⊢
      simp [ih]

/-- Counterexample to C8 as stated: the empty sequence coerces to the empty
string, and splitting the empty string on commas yields a single empty
field, not the original empty sequence. -/
theorem C8_counterexample_empty :
    coerceValue (.strList []) = some "" ∧
    pySplit "" ',' = [""] ∧ ¬ pySplit "" ',' = ([] : List String) := by
  decide

/-- C8 (amended): for every nonempty sequence of strings, coercion joins the
elements with single commas, and splitting the coerced string on commas
recovers the original sequence whenever no element itself contains a
comma. -/
theorem C8_join_split_roundtrip (xs : List String) (hne : xs ≠ [])
    (hnc : ∀ x ∈ xs, ',' ∉ x.data) :
    coerceValue (.strList xs) = some (pyJoin "," xs) ∧
    pySplit (pyJoin "," xs) ',' = xs := by
  refine ⟨rfl, ?_⟩
  unfold pySplit
  rw [pyJoin_comma_data,
    splitOnChar_joinCharSep ',' _ (by simpa using hne) ?hm]
  · rw [List.map_map]
    have hid : String.mk ∘ String.data = id := funext fun s => rfl
    rw [hid, List.map_id]
  case hm =>
    intro x hx
    rw [List.mem_map] at hx
    obtain ⟨s, hs, rfl⟩ := hx
    exact hnc s hs

/-- Witness for C8's amended claim at the sequence `[email, title]`. -/
theorem C8_join_split_roundtrip_witness :
    coerceValue (.strList ["email", "title"]) = some (pyJoin "," ["email", "title"]) ∧
    pySplit (pyJoin "," ["email", "title"]) ',' = ["email", "title"] :=
  C8_join_split_roundtrip ["email", "title"] (by decide) (by decide)

/-- C10: `_build_url` mutates the caller-supplied maps: afterwards the
caller's `path_params` has every value overwritten with its
percent-encoded form, the caller's `query_params` has gained a
`flatten = "true"` entry when the key was absent, and a second call made
with the maps the first call left behind substitutes doubly-encoded
values into the URL. -/
theorem C10_build_url_mutates (ub path : String)
    (pp qp : List (String × String))
    (hf : (qp.lookup "flatten").isSome = false)
    (hs : (build_url ub path pp qp).1.isSome = true) :
    (build_url ub path pp qp).2.1 = pp.map (fun kv => (kv.1, quotePlus kv.2)) ∧
    (build_url ub path pp qp).2.2 = qp ++ [("flatten", "true")] ∧
    (build_url ub path (build_url ub path pp qp).2.1
        (build_url ub path pp qp).2.2).2.1 =
      pp.map (fun kv => (kv.1, quotePlus (quotePlus kv.2))) := by
  cases hsub : substTemplate (pp.map fun kv => (kv.1, quotePlus kv.2)) path.data with
  | none => rw [build_url] at hs; simp [hsub] at hs
  | some cs =>
    refine ⟨?_, ?_, ?_⟩
    · simp [build_url, hsub]
    · simp [build_url, hsub, hf]
    · rw [build_url_path_params, build_url_path_params, List.map_map]
      exact List.map_congr_left fun kv _ => rfl

/-- Witness for C10: the value `a b` is encoded to `a+b` by the first call,
and the mutated map makes a second call produce the double-encoded
`a%2Bb`. -/
theorem C10_build_url_mutates_witness :
    (build_url "/" "%(x)s" [("x", "a b")] []).1 = some "/a+b?flatten=true" ∧
    (build_url "/" "%(x)s" [("x", "a+b")] [("flatten", "true")]).1 =
      some "/a%2Bb?flatten=true" ∧
    ((build_url "/" "%(x)s" [("x", "a b")] []).2.1 =
        [("x", "a b")].map (fun kv => (kv.1, quotePlus kv.2)) ∧
      (build_url "/" "%(x)s" [("x", "a b")] []).2.2 = [] ++ [("flatten", "true")] ∧
      (build_url "/" "%(x)s" (build_url "/" "%(x)s" [("x", "a b")] []).2.1
          (build_url "/" "%(x)s" [("x", "a b")] []).2.2).2.1 =
        [("x", "a b")].map (fun kv => (kv.1, quotePlus (quotePlus kv.2)))) :=
  ⟨rfl, rfl,
   C10_build_url_mutates "/" "%(x)s" [("x", "a b")] [] (by decide) (by decide)⟩

/-- Witness for C3: with no caller-supplied `flatten` key, the built URL
ends in `flatten=true` and the query map gains the default entry. -/
theorem C3_flatten_default_witness :
    (build_url "/" "p" [] [("fetch", "x")]).2.2 =
      [("fetch", "x")] ++ [("flatten", "true")] ∧
    "flatten=true".data <:+ "/p?fetch=x&flatten=true".data :=
  (C3_flatten_default "/" "p" [] [("fetch", "x")]).2 (by decide)
    "/p?fetch=x&flatten=true" (by decide)

/-- C9: parameter coercion is idempotent: feeding the output of
`_params_to_strings` (an all-string map) back through `_params_to_strings`
returns it unchanged, because every coerced value is a string and strings
pass through unchanged. -/
theorem C9_coercion_idempotent (m : List (String × PValue)) :
    params_to_strings (liftStrings (params_to_strings m)) = params_to_strings m :=
  params_to_strings_liftStrings (params_to_strings m)

theorem observed_auth_update_other (w : World) (c c2 : Connection)
    (h : c.sid ≠ c2.sid) :
    observed_auth (update_authorization w c) c2 = observed_auth w c2 := by
  unfold observed_auth update_authorization
  rw [List.getElem?_set_ne h]

theorem init_connection_sid (w : World) (h : String) (p : Nat) (b : String) :
    (init_connection w h p b).2.sid = w.sessions.length := rfl

theorem init_connection_sessions_length (w : World) (h : String) (p : Nat)
    (b : String) :
    (init_connection w h p b).1.sessions.length = w.sessions.length + 1 := by
  simp [init_connection, set_username, update_authorization, List.length_set]

/-- C4: credential state is per-instance.  For two connections created
independently (each `__init__` call allocating its own fresh
`requests.Session`), `set_username` or `set_password` on either one never
changes the basic-authentication pair that invocations through the other
observe. -/
theorem C4_credentials_per_instance (w : World) (h1 b1 h2 b2 : String)
    (p1 p2 : Nat) (u pw : Option String) (wc1 wc2 : World × Connection)
    (e1 : wc1 = init_connection w h1 p1 b1)
    (e2 : wc2 = init_connection wc1.1 h2 p2 b2) :
    observed_auth (set_username wc2.1 wc1.2 u).1 wc2.2 =
      observed_auth wc2.1 wc2.2 ∧
    observed_auth (set_password wc2.1 wc1.2 pw).1 wc2.2 =
      observed_auth wc2.1 wc2.2 ∧
    observed_auth (set_username wc2.1 wc2.2 u).1 wc1.2 =
      observed_auth wc2.1 wc1.2 ∧
    observed_auth (set_password wc2.1 wc2.2 pw).1 wc1.2 =
      observed_auth wc2.1 wc1.2 := by
  subst e1 e2
  have hs1 : (init_connection w h1 p1 b1).2.sid = w.sessions.length :=
    init_connection_sid w h1 p1 b1
  have hs2 : (init_connection (init_connection w h1 p1 b1).1 h2 p2 b2).2.sid =
      w.sessions.length + 1 := by
    rw [init_connection_sid, init_connection_sessions_length]
  have hne : (init_connection w h1 p1 b1).2.sid ≠
      (init_connection (init_connection w h1 p1 b1).1 h2 p2 b2).2.sid := by
    omega
  exact ⟨observed_auth_update_other _ _ _ hne,
    observed_auth_update_other _ _ _ hne,
    observed_auth_update_other _ _ _ (Ne.symm hne),
    observed_auth_update_other _ _ _ (Ne.symm hne)⟩

/-- Witness for C4: two connections created in an empty world, exercising
both setters with a named group and a password. -/
theorem C4_credentials_per_instance_witness :
    observed_auth
      (set_username (init_connection (init_connection ⟨[]⟩ "a" 1 "").1 "b" 2 "").1
        (init_connection ⟨[]⟩ "a" 1 "").2 (some "group")).1
      (init_connection (init_connection ⟨[]⟩ "a" 1 "").1 "b" 2 "").2 =
    observed_auth (init_connection (init_connection ⟨[]⟩ "a" 1 "").1 "b" 2 "").1
      (init_connection (init_connection ⟨[]⟩ "a" 1 "").1 "b" 2 "").2 :=
  (C4_credentials_per_instance ⟨[]⟩ "a" "" "b" "" 1 2 (some "group") (some "pw")
    (init_connection ⟨[]⟩ "a" 1 "")
    (init_connection (init_connection ⟨[]⟩ "a" 1 "").1 "b" 2 "") rfl rfl).1

/-- A credential mutation on a connection: a `set_username` or
`set_password` call, possibly with a `None` argument. -/
inductive CredOp where
  | setU (u : Option String)
  | setP (p : Option String)

/-- Apply one credential mutation to a world/connection pair. -/
def apply_cred_op (wc : World × Connection) : CredOp → World × Connection
  | .setU u => set_username wc.1 wc.2 u
  | .setP p => set_password wc.1 wc.2 p

/-- Invariant: the connection's session holds the concrete
basic-authentication pair resolved from the connection's `username` and
`password` attributes with their defaults. -/
def cred_resolved (wc : World × Connection) : Prop :=
  wc.1.sessions[wc.2.sid]? =
    some (some (wc.2.username.getD "anonymous", wc.2.password.getD ""))

theorem cred_resolved_init (w : World) (h : String) (p : Nat) (b : String) :
    cred_resolved (init_connection w h p b) := by
  unfold cred_resolved init_connection set_username update_authorization
  simp only
  rw [List.getElem?_set_self (by simp)]

theorem cred_resolved_step (wc : World × Connection) (op : CredOp)
    (hw : cred_resolved wc) : cred_resolved (apply_cred_op wc op) := by
  have hlt : wc.2.sid < wc.1.sessions.length := by
    unfold cred_resolved at hw
    exact (List.getElem?_eq_some.mp hw).1
  cases op <;>
    (unfold cred_resolved apply_cred_op set_username set_password update_authorization
     simp only
     rw [List.getElem?_set_self hlt])

theorem cred_resolved_fold (ops : List CredOp) (wc : World × Connection)
    (hw : cred_resolved wc) : cred_resolved (ops.foldl apply_cred_op wc) := by
  induction ops generalizing wc with
  | nil => exact hw
  | cons op t ih => exact ih _ (cred_resolved_step wc op hw)

theorem observed_auth_of_resolved (wc : World × Connection)
    (hw : cred_resolved wc) :
    observed_auth wc.1 wc.2 =
      some (wc.2.username.getD "anonymous", wc.2.password.getD "") := by
  unfold cred_resolved at hw
  unfold observed_auth
  rw [hw]

/-- C5: after construction, and after any sequence of `set_username` and
`set_password` calls (including with `None` arguments), the
basic-authentication pair every invocation presents is a concrete pair:
the username attribute defaulted to `anonymous` and the password attribute
defaulted to the empty string.  A fresh connection presents exactly
`(anonymous, "")`. -/
theorem C5_credentials_always_resolved (w : World) (h : String) (p : Nat)
    (b : String) (ops : List CredOp) :
    observed_auth (init_connection w h p b).1 (init_connection w h p b).2 =
      some ("anonymous", "") ∧
    observed_auth (ops.foldl apply_cred_op (init_connection w h p b)).1
        (ops.foldl apply_cred_op (init_connection w h p b)).2 =
      some ((ops.foldl apply_cred_op (init_connection w h p b)).2.username.getD
          "anonymous",
        (ops.foldl apply_cred_op (init_connection w h p b)).2.password.getD "") :=
  ⟨(observed_auth_of_resolved _ (cred_resolved_init w h p b)).trans rfl,
   observed_auth_of_resolved _
     (cred_resolved_fold ops _ (cred_resolved_init w h p b))⟩

end Ibis
